import Mathlib

/-!
Shallow embedding of the session/state engine of the Focus Flow pomodoro
application (`focus.py`): the `PomodoroTimer` state machine, the task list
with its undo cache and drag-reorder, the `StatsStore` aggregates, and the
controller logic of the main loop (timer tick, settings application, task
toggling).  Times are rationals (Python floats carry exact small decimals in
every scenario of interest), Python ints are `Int`, Python dicts keyed by
date strings are association lists with first-match lookup and in-place
update.
-/

namespace Focus

/-- A task item (`Task` dataclass): `text`, `complete` (default `False`),
`score` (default `10`). -/
structure Task where
  text : String
  complete : Bool := false
  score : Int := 10
deriving DecidableEq

/-- `PomodoroTimer.__init__`: the mutable timer fields. -/
structure PomodoroTimer where
  total : ℚ
  remaining : ℚ
  running : Bool
  session_count : Nat
  is_break : Bool
  sessions_completed : Nat
  custom_break : ℚ
  default_session : ℚ
deriving DecidableEq

/-- The freshly constructed timer (`DEFAULT_POMODORO = 25 * 60`). -/
def PomodoroTimer.init : PomodoroTimer :=
  { total := 1500, remaining := 1500, running := false, session_count := 1,
    is_break := false, sessions_completed := 0, custom_break := 5,
    default_session := 1500 }

/-- `PomodoroTimer.start`: sets `running = True`. -/
def PomodoroTimer.start (t : PomodoroTimer) : PomodoroTimer :=
  { t with running := true }

/-- `PomodoroTimer.stop`: sets `running = False`. -/
def PomodoroTimer.stop (t : PomodoroTimer) : PomodoroTimer :=
  { t with running := false }

/-- `PomodoroTimer.reset(total=None)`: optionally replaces `total`, then sets
`remaining = total` and `running = False`. -/
def PomodoroTimer.reset (t : PomodoroTimer) (total? : Option ℚ) : PomodoroTimer :=
  let tot := total?.getD t.total
  { t with total := tot, remaining := tot, running := false }

/-- `PomodoroTimer.reset_full`: back to the default pomodoro. -/
def PomodoroTimer.reset_full (t : PomodoroTimer) : PomodoroTimer :=
  { t with total := t.default_session, remaining := t.default_session,
           running := false, is_break := false, session_count := 1 }

/-- `PomodoroTimer.update(dt)`: returns the `bool` result of the Python
method together with the mutated timer.  If not running it returns `False`
unchanged; otherwise it decrements `remaining` by `dt` and, on reaching
`<= 0`, clamps to `0`, stops, and returns `True`. -/
def PomodoroTimer.update (t : PomodoroTimer) (dt : ℚ) : Bool × PomodoroTimer :=
  if t.running then
    if t.remaining - dt ≤ 0 then
      (true, { t with remaining := 0, running := false })
    else
      (false, { t with remaining := t.remaining - dt })
  else (false, t)

/-- `PomodoroTimer.complete_session`, line for line: increment
`sessions_completed`; if `session_count >= 4` set `total = 30*60` and
`session_count = 1`, else `total = custom_break*60` and increment
`session_count`; set `is_break = True`, `remaining = total`,
`running = False`; finally (the trailing statement of the method)
unconditionally set `total = custom_break * 60` again. -/
def PomodoroTimer.complete_session (t : PomodoroTimer) : PomodoroTimer :=
  let t1 := { t with sessions_completed := t.sessions_completed + 1 }
  let t2 :=
    if t1.session_count ≥ 4 then
      { t1 with total := 30 * 60, session_count := 1 }
    else
      { t1 with total := t1.custom_break * 60, session_count := t1.session_count + 1 }
  let t3 := { t2 with is_break := true, remaining := t2.total, running := false }
  { t3 with total := t3.custom_break * 60 }

/-- `PomodoroTimer.start_focus_session`: restore the configured focus
duration, leave the break phase, stop. -/
def PomodoroTimer.start_focus_session (t : PomodoroTimer) : PomodoroTimer :=
  { t with total := t.default_session, is_break := false,
           remaining := t.default_session, running := false }

/-- Python dict `d.get(k, 0)` on a date-keyed int dict. -/
def dictGet : List (String × Int) → String → Int
  | [], _ => 0
  | p :: d, k => if p.1 = k then p.2 else dictGet d k

/-- Python `k in d`. -/
def dictMem : List (String × Int) → String → Bool
  | [], _ => false
  | p :: d, k => if p.1 = k then true else dictMem d k

/-- Python `d[k] = v`: update in place if the key exists, else append. -/
def dictSet : List (String × Int) → String → Int → List (String × Int)
  | [], k, v => [(k, v)]
  | p :: d, k, v => if p.1 = k then (k, v) :: d else p :: dictSet d k v

/-- The `StatsStore.stats` dictionary. -/
structure Stats where
  total_focus_time : Int
  total_sessions : Int
  longest_streak : Int
  current_streak : Int
  daily_records : List (String × Int)
  daily_task_scores : List (String × Int)
deriving DecidableEq

/-- The stats a fresh `StatsStore` starts with. -/
def Stats.init : Stats :=
  { total_focus_time := 0, total_sessions := 0, longest_streak := 0,
    current_streak := 0, daily_records := [], daily_task_scores := [] }

/-- `StatsStore.record_session(duration_seconds)`; `today` is the current
date string the Python code computes with `datetime.now()`. -/
def Stats.record_session (st : Stats) (today : String) (duration_seconds : Int) : Stats :=
  let st1 := { st with total_focus_time := st.total_focus_time + duration_seconds,
                       total_sessions := st.total_sessions + 1,
                       current_streak := st.current_streak + 1 }
  let st2 :=
    if st1.current_streak > st1.longest_streak then
      { st1 with longest_streak := st1.current_streak }
    else st1
  { st2 with daily_records :=
      dictSet st2.daily_records today (dictGet st2.daily_records today + 1) }

/-- `StatsStore.record_task_completion(score)`. -/
def Stats.record_task_completion (st : Stats) (today : String) (score : Int) : Stats :=
  { st with daily_task_scores :=
      dictSet st.daily_task_scores today (dictGet st.daily_task_scores today + score) }

/-- `StatsStore.deduct_task_score(score)`: only touches the bucket of today when
it exists, flooring at `0`. -/
def Stats.deduct_task_score (st : Stats) (today : String) (score : Int) : Stats :=
  if dictMem st.daily_task_scores today then
    let v := max 0 (dictGet st.daily_task_scores today - score)
    { st with daily_task_scores := dictSet st.daily_task_scores today v }
  else st

/-- Python `int(q)`: truncation toward zero. -/
def pyInt (q : ℚ) : Int := if 0 ≤ q then ⌊q⌋ else ⌈q⌉

/-- The slice of `FocusApp` state the timer tick and the settings handler
touch. -/
structure FocusApp where
  timer : PomodoroTimer
  stats : Stats
  custom_pomodoro : ℚ
  custom_break : ℚ
deriving DecidableEq

/-- The timer-update block at the bottom of `FocusApp.run` (mode `MAIN`):
`if self.timer.update(dt): ... stats.record_session(int(self.timer.total))`
followed by the `is_break` branch that calls `start_focus_session` or
`complete_session` and then overwrites `total` and `remaining` with the
configured next-phase duration. -/
def FocusApp.tickTimer (a : FocusApp) (today : String) (dt : ℚ) : FocusApp :=
  let p := a.timer.update dt
  if p.1 then
    let stats1 := a.stats.record_session today (pyInt p.2.total)
    if p.2.is_break then
      let t2 := p.2.start_focus_session
      let t3 := { t2 with total := a.custom_pomodoro * 60,
                          remaining := a.custom_pomodoro * 60 }
      { a with timer := t3, stats := stats1 }
    else
      let t2 := p.2.complete_session
      let t3 := { t2 with total := a.custom_break * 60,
                          remaining := a.custom_break * 60 }
      { a with timer := t3, stats := stats1 }
  else { a with timer := p.2 }

/-- The settings-accepted branch of `FocusApp.run`: store the new minutes,
set the timer field `default_session`, call `timer.reset(total=session*60)`,
then set the timer field `custom_break`. -/
def FocusApp.applySettings (a : FocusApp) (session_min break_min : ℚ) : FocusApp :=
  let a1 := { a with custom_pomodoro := session_min, custom_break := break_min }
  let t1 := { a1.timer with default_session := a1.custom_pomodoro * 60 }
  let t2 := t1.reset (some (a1.custom_pomodoro * 60))
  let t3 := { t2 with custom_break := a1.custom_break }
  { a1 with timer := t3 }

/-- The checkbox branch of `FocusApp.edit_or_toggle`: record or deduct the
score of the task depending on its current `complete` flag, then flip the flag. -/
def toggleTask (t : Task) (st : Stats) (today : String) : Task × Stats :=
  let st1 :=
    if t.complete then st.deduct_task_score today t.score
    else st.record_task_completion today t.score
  ({ t with complete := !t.complete }, st1)

/-- Iterate `toggleTask` on the same task `n` times (all on the same day). -/
def toggleIter (today : String) : Nat → Task × Stats → Task × Stats
  | 0, p => p
  | n + 1, p => toggleIter today n (toggleTask p.1 p.2 today)

/-- Python `list.insert(j, x)`: positions past the end append (clamp). -/
def pyInsert (l : List Task) (j : Nat) (x : Task) : List Task :=
  l.insertIdx (min j l.length) x

/-- The drag-release reorder in `FocusApp.run`:
`task_to_move = tasks.pop(i); tasks.insert(j, task_to_move)`.  `none` models
the `IndexError` an invalid `pop` index would raise. -/
def reorderTasks (l : List Task) (i j : Nat) : Option (List Task) :=
  if h : i < l.length then some (pyInsert (l.eraseIdx i) j (l.get ⟨i, h⟩))
  else none

/-- The confirmed right-click delete in `FocusApp.run`:
`undo_cache.append(tasks.pop(k))`. -/
def deleteTask (l cache : List Task) (k : Nat) : Option (List Task × List Task) :=
  if h : k < l.length then some (l.eraseIdx k, cache ++ [l.get ⟨k, h⟩])
  else none

/-- The CTRL+Z handler in `FocusApp.run`: if the undo cache is nonempty,
`tasks.append(undo_cache.pop())`; returns the restored task, `none` when the
cache is empty. -/
def undoDelete (l cache : List Task) : (List Task × List Task) × Option Task :=
  match cache.getLast? with
  | some t => ((l ++ [t], cache.dropLast), some t)
  | none => ((l, cache), none)

/-- A JSON-like document value, enough for the two task-document shapes. -/
inductive Json where
  | jstr (s : String)
  | jbool (b : Bool)
  | jint (n : Int)
  | jarr (xs : List Json)
  | jobj (fields : List (String × Json))

/-- Field lookup in a JSON object. -/
def jlookup (fs : List (String × Json)) (k : String) : Option Json :=
  match fs with
  | [] => none
  | p :: rest => if p.1 = k then some p.2 else jlookup rest k

/-- One entry of the serialized list: `t.__dict__`. -/
def taskToJson (t : Task) : Json :=
  .jobj [("text", .jstr t.text), ("complete", .jbool t.complete),
         ("score", .jint t.score)]

/-- `TaskStore.save`: `{"tasks": [t.__dict__ for t in tasks]}`. -/
def saveTasksDoc (ts : List Task) : Json :=
  .jobj [("tasks", .jarr (ts.map taskToJson))]

/-- `Task(**t)` on one deserialized entry: `text` required, `complete` and
`score` fall back to the dataclass defaults when absent. -/
def jsonToTask : Json → Option Task
  | .jobj fs =>
    match jlookup fs "text" with
    | some (.jstr s) =>
      let comp : Option Bool :=
        match jlookup fs "complete" with
        | some (.jbool b) => some b
        | none => some false
        | _ => none
      let sc : Option Int :=
        match jlookup fs "score" with
        | some (.jint n) => some n
        | none => some 10
        | _ => none
      match comp, sc with
      | some c, some n => some { text := s, complete := c, score := n }
      | _, _ => none
    | _ => none
  | _ => none

/-- The list comprehension `[Task(**t) for t in entries]`: every entry must
deserialize, the first failure aborts the load (a `TypeError` in Python). -/
def loadEntries : List Json → Option (List Task)
  | [] => some []
  | x :: xs =>
    match jsonToTask x, loadEntries xs with
    | some t, some ts => some (t :: ts)
    | _, _ => none

/-- `TaskStore.load` on an in-memory document:
`[Task(**t) for t in doc.get("tasks", [])]`. -/
def loadTasksDoc (j : Json) : Option (List Task) :=
  match j with
  | .jobj fs =>
    match jlookup fs "tasks" with
    | some (.jarr xs) => loadEntries xs
    | none => some []
    | _ => none
  | _ => none

/-- Run a sequence of `update` calls, collecting the returned booleans and
the final timer. -/
def runUpdates (t : PomodoroTimer) : List ℚ → List Bool × PomodoroTimer
  | [] => ([], t)
  | d :: ds =>
    let p := t.update d
    let q := runUpdates p.2 ds
    (p.1 :: q.1, q.2)

/-- The invariant claimed for the timer state: `0 ≤ remaining ≤ total`. -/
def timerInv (t : PomodoroTimer) : Prop := 0 ≤ t.remaining ∧ t.remaining ≤ t.total

instance (t : PomodoroTimer) : Decidable (timerInv t) := by
  unfold timerInv; infer_instance

/-! ### Helper lemmas about `update` sequences -/

lemma update_not_running (t : PomodoroTimer) (d : ℚ) (h : t.running = false) :
    t.update d = (false, t) := by
  simp [PomodoroTimer.update, h]

lemma update_fires (t : PomodoroTimer) (d : ℚ) (h : t.running = true)
    (hf : t.remaining - d ≤ 0) :
    t.update d = (true, { t with remaining := 0, running := false }) := by
  simp [PomodoroTimer.update, h, hf]

lemma update_decrements (t : PomodoroTimer) (d : ℚ) (h : t.running = true)
    (hf : 0 < t.remaining - d) :
    t.update d = (false, { t with remaining := t.remaining - d }) := by
  simp only [PomodoroTimer.update, h, if_true]
  rw [if_neg (not_le.mpr hf)]

lemma update_total (t : PomodoroTimer) (d : ℚ) : ((t.update d).2).total = t.total := by
  simp only [PomodoroTimer.update]
  split <;> [skip; rfl]
  split <;> rfl

lemma runUpdates_stopped (ds : List ℚ) (t : PomodoroTimer) (h : t.running = false) :
    runUpdates t ds = (List.replicate ds.length false, t) := by
  induction ds with
  | nil => rfl
  | cons d ds ih =>
    simp [runUpdates, update_not_running t d h, ih, List.replicate_succ]

lemma replicate_false_getD (m k : Nat) : (List.replicate m false).getD k false = false := by
  induction m generalizing k with
  | zero => simp
  | succ m ih =>
    cases k with
    | zero => simp [List.replicate_succ]
    | succ k => simp [List.replicate_succ, ih]

lemma take_sum_nonneg (ds : List ℚ) (hd : ∀ d ∈ ds, 0 ≤ d) (k : Nat) :
    0 ≤ (ds.take k).sum :=
  List.sum_nonneg fun x hx => hd x (List.take_subset k ds hx)

lemma runUpdates_char (ds : List ℚ) : ∀ t : PomodoroTimer,
    (∀ d ∈ ds, 0 ≤ d) → t.running = true → 0 < t.remaining →
    ((runUpdates t ds).2.remaining
        = if ds.sum < t.remaining then t.remaining - ds.sum else 0) ∧
    ((runUpdates t ds).2.running = decide (ds.sum < t.remaining)) ∧
    (∀ k : Nat, (runUpdates t ds).1.getD k false
        = decide ((ds.take k).sum < t.remaining ∧ t.remaining ≤ (ds.take (k + 1)).sum)) := by
  induction ds with
  | nil =>
    intro t hd hrun hr
    have hnot : ¬ t.remaining ≤ 0 := not_le.mpr hr
    refine ⟨by simp [runUpdates, hr], by simp [runUpdates, hrun, hr], ?_⟩
    intro k
    simp [runUpdates, hnot]
  | cons d ds ih =>
    intro t hd hrun hr
    have hds : ∀ x ∈ ds, 0 ≤ x := fun x hx => hd x (List.mem_cons_of_mem d hx)
    have hd0 : 0 ≤ d := hd d (List.mem_cons_self d ds)
    have hsumnn : 0 ≤ ds.sum := List.sum_nonneg hds
    by_cases hf : t.remaining - d ≤ 0
    · have hEq : runUpdates t (d :: ds)
          = (true :: List.replicate ds.length false,
             { t with remaining := 0, running := false }) := by
        simp [runUpdates, update_fires t d hrun hf,
          runUpdates_stopped ds { t with remaining := 0, running := false } rfl]
      have hge : ¬ d + ds.sum < t.remaining := by
        push_neg
        linarith
      refine ⟨by rw [hEq]; simp [List.sum_cons, hge],
        by rw [hEq]; simp [List.sum_cons, hge], ?_⟩
      intro k
      rw [hEq]
      cases k with
      | zero =>
        have h1 : t.remaining ≤ d := by linarith
        simp [List.take_succ_cons, List.sum_cons, hr, h1]
      | succ k =>
        have h2 : ¬ d + (ds.take k).sum < t.remaining := by
          have := take_sum_nonneg ds hds k
          push_neg
          linarith
        simp [List.take_succ_cons, List.sum_cons, replicate_false_getD, h2]
    · push_neg at hf
      have hupd := update_decrements t d hrun hf
      have hEq : runUpdates t (d :: ds)
          = (false :: (runUpdates { t with remaining := t.remaining - d } ds).1,
             (runUpdates { t with remaining := t.remaining - d } ds).2) := by
        simp [runUpdates, hupd]
      obtain ⟨ihrem, ihrunn, ihget⟩ :=
        ih { t with remaining := t.remaining - d } hds hrun hf
      have hproj : ({ t with remaining := t.remaining - d } : PomodoroTimer).remaining
          = t.remaining - d := rfl
      rw [hproj] at ihrem ihrunn ihget
      refine ⟨?_, ?_, ?_⟩
      · rw [hEq, ihrem, List.sum_cons]
        by_cases hc : ds.sum < t.remaining - d
        · rw [if_pos hc, if_pos (by linarith)]
          ring
        · rw [if_neg hc, if_neg (by push_neg at hc ⊢; linarith)]
      · rw [hEq, ihrunn, List.sum_cons]
        exact decide_eq_decide.mpr (by constructor <;> intro <;> linarith)
      · intro k
        rw [hEq]
        cases k with
        | zero =>
          have h3 : ¬ t.remaining ≤ d := by
            push_neg
            linarith
          simp [List.take_succ_cons, List.sum_cons, h3]
        | succ k =>
          rw [List.getD_cons_succ, ihget k, List.take_succ_cons, List.take_succ_cons,
            List.sum_cons, List.sum_cons]
          exact decide_eq_decide.mpr
            (by constructor <;> (rintro ⟨h1, h2⟩; exact ⟨by linarith, by linarith⟩))

lemma runUpdates_count (ds : List ℚ) : ∀ t : PomodoroTimer,
    ((runUpdates t ds).1.count true) ≤ 1 := by
  induction ds with
  | nil => intro t; simp [runUpdates]
  | cons d ds ih =>
    intro t
    by_cases hrb : t.running
    · by_cases hf : t.remaining - d ≤ 0
      · have h1 := runUpdates_stopped ds
          { t with remaining := 0, running := false } rfl
        simp [runUpdates, update_fires t d hrb hf, h1, List.count_cons,
          List.count_replicate]
      · push_neg at hf
        simp [runUpdates, update_decrements t d hrb hf, List.count_cons]
        exact ih _
    · have hb : t.running = false := by simpa using hrb
      rw [runUpdates_stopped (d :: ds) t hb]
      simp [List.count_replicate]

lemma exists_crossing : ∀ (ds : List ℚ) (r : ℚ), (∀ d ∈ ds, 0 ≤ d) → 0 < r →
    r ≤ ds.sum → ∃ k, (ds.take k).sum < r ∧ r ≤ (ds.take (k + 1)).sum := by
  intro ds
  induction ds with
  | nil =>
    intro r _ hr hsum
    simp only [List.sum_nil] at hsum
    exact absurd hsum (not_le.mpr hr)
  | cons d ds ih =>
    intro r hd hr hsum
    by_cases hc : r ≤ d
    · refine ⟨0, by simpa using hr, ?_⟩
      simp [List.take_succ_cons]
      linarith
    · push_neg at hc
      have hds : ∀ x ∈ ds, 0 ≤ x := fun x hx => hd x (List.mem_cons_of_mem d hx)
      have hsum2 : r - d ≤ ds.sum := by
        rw [List.sum_cons] at hsum
        linarith
      obtain ⟨k, h1, h2⟩ := ih (r - d) hds (by linarith) hsum2
      refine ⟨k + 1, ?_, ?_⟩
      · rw [List.take_succ_cons, List.sum_cons]
        linarith
      · rw [List.take_succ_cons, List.sum_cons]
        linarith

lemma count_one_of_fired (s : PomodoroTimer) (ds : List ℚ)
    (hd : ∀ d ∈ ds, 0 ≤ d) (hrun : s.running = true) (hr : 0 < s.remaining)
    (hsum : s.remaining ≤ ds.sum) :
    (runUpdates s ds).1.count true = 1 := by
  obtain ⟨k, h1, h2⟩ := exists_crossing ds s.remaining hd hr hsum
  have hget := ((runUpdates_char ds s hd hrun hr).2.2) k
  rw [decide_eq_true (p := _ ∧ _) ⟨h1, h2⟩] at hget
  have hmem : true ∈ (runUpdates s ds).1 := by
    rw [List.getD_eq_getElem?_getD] at hget
    cases hx : (runUpdates s ds).1[k]? with
    | none => rw [hx] at hget; simp at hget
    | some b =>
      rw [hx] at hget
      simp at hget
      obtain ⟨hlt, hb⟩ := List.getElem?_eq_some_iff.mp hx
      exact hget ▸ hb ▸ List.getElem_mem hlt
  have hpos : 0 < (runUpdates s ds).1.count true := List.count_pos_iff.mpr hmem
  have hle := runUpdates_count ds s
  omega

/-! ### Helper lemmas about the daily-score dictionary and task toggling -/

lemma dictGet_dictSet_self (d : List (String × Int)) (k : String) (v : Int) :
    dictGet (dictSet d k v) k = v := by
  induction d with
  | nil => simp [dictSet, dictGet]
  | cons p d ih =>
    by_cases h : p.1 = k
    · simp [dictSet, dictGet, h]
    · simp [dictSet, dictGet, h, ih]

lemma dictMem_dictSet_self (d : List (String × Int)) (k : String) (v : Int) :
    dictMem (dictSet d k v) k = true := by
  induction d with
  | nil => simp [dictSet, dictMem]
  | cons p d ih =>
    by_cases h : p.1 = k
    · simp [dictSet, dictMem, h]
    · simp [dictSet, dictMem, h, ih]

lemma toggle_step_nonneg (t : Task) (st : Stats) (today : String)
    (hs : 0 ≤ t.score) (hv : 0 ≤ dictGet st.daily_task_scores today) :
    0 ≤ dictGet ((toggleTask t st today).2).daily_task_scores today ∧
    (toggleTask t st today).1.score = t.score := by
  refine ⟨?_, rfl⟩
  by_cases hc : t.complete
  · simp only [toggleTask, hc, if_true]
    by_cases hm : dictMem st.daily_task_scores today
    · simp only [Stats.deduct_task_score, hm, if_true]
      rw [dictGet_dictSet_self]
      exact le_max_left 0 _
    · simp only [Stats.deduct_task_score, hm, Bool.false_eq_true, if_false]
      exact hv
  · simp only [toggleTask, hc, Bool.false_eq_true, if_false,
      Stats.record_task_completion]
    rw [dictGet_dictSet_self]
    linarith

lemma toggle_pair (t : Task) (st : Stats) (today : String)
    (hc : t.complete = false) (hv : 0 ≤ dictGet st.daily_task_scores today) :
    ((toggleTask (toggleTask t st today).1 (toggleTask t st today).2 today).1.complete
        = false) ∧
    ((toggleTask (toggleTask t st today).1 (toggleTask t st today).2 today).1.score
        = t.score) ∧
    (dictGet ((toggleTask (toggleTask t st today).1
        (toggleTask t st today).2 today).2).daily_task_scores today
      = dictGet st.daily_task_scores today) := by
  have h1 : toggleTask t st today
      = ({ t with complete := true }, st.record_task_completion today t.score) := by
    simp [toggleTask, hc]
  rw [h1]
  have hm : dictMem (st.record_task_completion today t.score).daily_task_scores today
      = true := by
    simp only [Stats.record_task_completion]
    exact dictMem_dictSet_self _ _ _
  have hg : dictGet (st.record_task_completion today t.score).daily_task_scores today
      = dictGet st.daily_task_scores today + t.score := by
    simp only [Stats.record_task_completion]
    exact dictGet_dictSet_self _ _ _
  refine ⟨rfl, rfl, ?_⟩
  simp only [toggleTask, if_true, Stats.deduct_task_score, hm]
  rw [dictGet_dictSet_self, hg]
  have heq : dictGet st.daily_task_scores today + t.score - t.score
      = dictGet st.daily_task_scores today := by ring
  rw [heq, max_eq_right hv]

lemma toggleIter_succ (today : String) (n : Nat) (t : Task) (st : Stats) :
    toggleIter today (n + 1) (t, st) = toggleIter today n (toggleTask t st today) :=
  rfl

lemma toggleIter_two_step (today : String) (n : Nat) (t : Task) (st : Stats) :
    toggleIter today (n + 2) (t, st)
      = toggleIter today n
          (toggleTask (toggleTask t st today).1 (toggleTask t st today).2 today) :=
  rfl

/-! ### Helper lemma for the reorder round trip -/

lemma insertIdx_getElem_eraseIdx_self :
    ∀ (l : List Task) (i : Nat) (h : i < l.length),
      (l.eraseIdx i).insertIdx i (l.get ⟨i, h⟩) = l
  | _ :: _, 0, _ => rfl
  | a :: t, i + 1, h => by
    have ih := insertIdx_getElem_eraseIdx_self t i (by simpa using h)
    simpa [List.eraseIdx_cons_succ, List.insertIdx_succ_cons] using ih

/-! ### Helper lemma for the save/load round trip -/

lemma jsonToTask_taskToJson (t : Task) : jsonToTask (taskToJson t) = some t := rfl

/-! ### Concrete states used by counterexamples and witnesses -/

/-- A timer that has completed three focus sessions and is on its fourth
(`session_count = 4`), about to earn the long break. -/
def exTimerFour : PomodoroTimer :=
  { total := 1500, remaining := 1500, running := false, session_count := 4,
    is_break := false, sessions_completed := 3, custom_break := 5,
    default_session := 1500 }

/-- A running break phase with one second left. -/
def exTimerBreak : PomodoroTimer :=
  { total := 300, remaining := 1, running := true, session_count := 2,
    is_break := true, sessions_completed := 1, custom_break := 5,
    default_session := 1500 }

/-- App state in the middle of the break of `exTimerBreak`. -/
def exAppBreak : FocusApp :=
  { timer := exTimerBreak, stats := Stats.init, custom_pomodoro := 25,
    custom_break := 5 }

/-- A running focus phase with one second left. -/
def exTimerFocus : PomodoroTimer :=
  { total := 1500, remaining := 1, running := true, session_count := 1,
    is_break := false, sessions_completed := 0, custom_break := 5,
    default_session := 1500 }

/-- App state in the middle of the focus phase of `exTimerFocus`. -/
def exAppFocus : FocusApp :=
  { timer := exTimerFocus, stats := Stats.init, custom_pomodoro := 25,
    custom_break := 5 }

/-- App state with a running, partially elapsed focus session. -/
def exAppRunning : FocusApp :=
  { timer := { total := 1500, remaining := 1000, running := true,
               session_count := 1, is_break := false, sessions_completed := 0,
               custom_break := 5, default_session := 1500 },
    stats := Stats.init, custom_pomodoro := 25, custom_break := 5 }

/-- Three tasks in display order. -/
def exTasks : List Task :=
  [{ text := "a", complete := false, score := 10 },
   { text := "b", complete := true, score := 5 },
   { text := "c", complete := false, score := 1 }]

/-- A timer whose countdown has just been exhausted. -/
def exTimerDone : PomodoroTimer :=
  { total := 1500, remaining := 0, running := false, session_count := 1,
    is_break := false, sessions_completed := 1, custom_break := 5,
    default_session := 1500 }

/-- A full, running focus session at its start. -/
def exTimerFocusFull : PomodoroTimer :=
  { total := 1500, remaining := 1500, running := true, session_count := 1,
    is_break := false, sessions_completed := 0, custom_break := 5,
    default_session := 1500 }

/-- A task completed on some earlier day. -/
def exTaskDone : Task := { text := "done earlier", complete := true, score := 10 }

/-- A not-yet-completed task. -/
def exTaskTodo : Task := { text := "todo", complete := false, score := 10 }

/-! ### Claim theorems -/

/-- C2 (code_bug): calling `complete_session` with `session_count = 4` does
set `session_count = 1`, `is_break = true`, `running = false` and the
long-break `remaining = 1800`, but the trailing
`self.total = self.custom_break * 60` clobbers `total` down to `300`, so the
claimed `total = 1800` and the invariant `remaining = total` both fail. -/
theorem C2_long_break_total_clobbered :
    exTimerFour.session_count = 4 ∧
    (exTimerFour.complete_session).session_count = 1 ∧
    (exTimerFour.complete_session).is_break = true ∧
    (exTimerFour.complete_session).running = false ∧
    (exTimerFour.complete_session).remaining = 1800 ∧
    (exTimerFour.complete_session).total = 300 ∧
    (exTimerFour.complete_session).total ≠ 1800 ∧
    (exTimerFour.complete_session).remaining ≠ (exTimerFour.complete_session).total := by
  refine ⟨rfl, rfl, rfl, rfl, ?_, ?_, ?_, ?_⟩ <;>
    norm_num [PomodoroTimer.complete_session, exTimerFour]

/-- C3 (code_bug): the state `exTimerFour` satisfies `0 ≤ remaining ≤ total`,
yet after the single operation `complete_session` the state has
`remaining = 1800 > total = 300`, so the invariant is not preserved by every
timer operation. -/
theorem C3_invariant_broken_by_complete_session :
    timerInv exTimerFour ∧ ¬ timerInv exTimerFour.complete_session := by
  constructor
  · constructor <;> norm_num [timerInv, exTimerFour]
  · intro h
    have h2 := h.2
    norm_num [PomodoroTimer.complete_session, exTimerFour, timerInv] at h2

/-- C5 counterexample (corrected): accepting a settings result while a
session is running changes `remaining`, `total` and `running` immediately,
because the handler calls `timer.reset(total=session_min*60)`. -/
theorem C5_counterexample :
    exAppRunning.timer.running = true ∧
    (exAppRunning.applySettings 30 10).timer.remaining ≠ exAppRunning.timer.remaining ∧
    (exAppRunning.applySettings 30 10).timer.total ≠ exAppRunning.timer.total ∧
    (exAppRunning.applySettings 30 10).timer.running ≠ exAppRunning.timer.running := by
  refine ⟨rfl, ?_, ?_, ?_⟩ <;>
    norm_num [FocusApp.applySettings, PomodoroTimer.reset, exAppRunning]

/-- C5 (corrected): accepting a settings-change result `(m, b)` persists the
new configuration (`custom_pomodoro = m`, `custom_break = b`), updates the
timer defaults (`default_session = m*60`, timer `custom_break = b`), and
additionally resets the timer immediately: `total = remaining = m*60` and
`running = false`, discarding any running session. -/
theorem C5_settings_update_and_reset (a : FocusApp) (m b : ℚ) :
    (a.applySettings m b).custom_pomodoro = m ∧
    (a.applySettings m b).custom_break = b ∧
    (a.applySettings m b).timer.default_session = m * 60 ∧
    (a.applySettings m b).timer.custom_break = b ∧
    (a.applySettings m b).timer.total = m * 60 ∧
    (a.applySettings m b).timer.remaining = m * 60 ∧
    (a.applySettings m b).timer.running = false := by
  refine ⟨rfl, rfl, rfl, rfl, rfl, rfl, rfl⟩

/-- C6 (confirmed): for valid indices `i ≠ j`, dragging the task at `i` to
position `j` (pop at `i`, insert at `j`) and then dragging it back from `j`
to `i` restores the original list exactly. -/
theorem C6_reorder_roundtrip (l : List Task) (i j : Nat)
    (hi : i < l.length) (hj : j < l.length) (hij : i ≠ j) :
    (reorderTasks l i j).bind (fun l2 => reorderTasks l2 j i) = some l := by
  have hel : (l.eraseIdx i).length = l.length - 1 := by
    simp [List.length_eraseIdx, hi]
  have hje : j ≤ (l.eraseIdx i).length := by rw [hel]; omega
  have hie : i ≤ (l.eraseIdx i).length := by rw [hel]; omega
  have hmin : min j (l.eraseIdx i).length = j := min_eq_left hje
  have hstep1 : reorderTasks l i j
      = some ((l.eraseIdx i).insertIdx j (l.get ⟨i, hi⟩)) := by
    simp only [reorderTasks]
    rw [dif_pos hi]
    simp only [pyInsert, hmin]
  have hl2len : ((l.eraseIdx i).insertIdx j (l.get ⟨i, hi⟩)).length = l.length := by
    rw [List.length_insertIdx _ _ hje, hel]
    omega
  have hjl2 : j < ((l.eraseIdx i).insertIdx j (l.get ⟨i, hi⟩)).length := by
    rw [hl2len]
    exact hj
  have hgetj : ((l.eraseIdx i).insertIdx j (l.get ⟨i, hi⟩)).get ⟨j, hjl2⟩
      = l.get ⟨i, hi⟩ := by
    rw [List.get_eq_getElem]
    exact List.getElem_insertIdx_self _ _ _ hje
  have heraj : ((l.eraseIdx i).insertIdx j (l.get ⟨i, hi⟩)).eraseIdx j
      = l.eraseIdx i := List.eraseIdx_insertIdx j (l.eraseIdx i)
  have hmin2 : min i (l.eraseIdx i).length = i := min_eq_left hie
  have hstep2 : reorderTasks ((l.eraseIdx i).insertIdx j (l.get ⟨i, hi⟩)) j i
      = some l := by
    simp only [reorderTasks]
    rw [dif_pos hjl2]
    simp only [pyInsert, hgetj, heraj, hmin2]
    rw [insertIdx_getElem_eraseIdx_self l i hi]
  rw [hstep1]
  simpa using hstep2

/-- C6 witness at a concrete three-task list, moving index 0 to 2 and back. -/
theorem C6_witness :
    (reorderTasks exTasks 0 2).bind (fun l2 => reorderTasks l2 2 0)
      = some exTasks :=
  C6_reorder_roundtrip exTasks 0 2 (by simp [exTasks]) (by simp [exTasks])
    (by omega)

/-- C7 (confirmed): deleting the task at a valid index `k` moves it to the
top of the undo cache; undoing re-appends exactly that task at the end of
the list (not at `k`) and pops the cache; undo entries come back most recent
first; undoing with an empty cache is a no-op returning `none`. -/
theorem C7_delete_undo (ts cache : List Task) (k : Nat) (t : Task)
    (hk : k < ts.length) :
    deleteTask ts cache k = some (ts.eraseIdx k, cache ++ [ts.get ⟨k, hk⟩]) ∧
    undoDelete (ts.eraseIdx k) (cache ++ [ts.get ⟨k, hk⟩])
      = ((ts.eraseIdx k ++ [ts.get ⟨k, hk⟩], cache), some (ts.get ⟨k, hk⟩)) ∧
    undoDelete ts (cache ++ [t]) = ((ts ++ [t], cache), some t) ∧
    undoDelete ts ([] : List Task) = ((ts, []), none) := by
  refine ⟨?_, ?_, ?_, rfl⟩
  · simp only [deleteTask]
    rw [dif_pos hk]
  · simp only [undoDelete, List.getLast?_concat, List.dropLast_concat]
  · simp only [undoDelete, List.getLast?_concat, List.dropLast_concat]

/-- C7 witness: LIFO restore and empty-cache no-op at concrete inputs. -/
theorem C7_witness :
    undoDelete exTasks ([] ++ [{ text := "x", complete := false, score := 2 }])
      = ((exTasks ++ [{ text := "x", complete := false, score := 2 }], []),
         some { text := "x", complete := false, score := 2 }) ∧
    undoDelete exTasks ([] : List Task) = ((exTasks, []), none) :=
  (C7_delete_undo exTasks [] 1 { text := "x", complete := false, score := 2 }
    (by simp [exTasks])).2.2

/-- C9 (confirmed): serializing a task list with `TaskStore.save` and
loading the document with a fresh `TaskStore.load` reproduces the same
ordered list of `(text, complete, score)` tuples. -/
theorem C9_save_load_roundtrip (ts : List Task) :
    loadTasksDoc (saveTasksDoc ts) = some ts := by
  have h : ∀ l : List Task, loadEntries (l.map taskToJson) = some l := by
    intro l
    induction l with
    | nil => rfl
    | cons a l ih => simp [loadEntries, jsonToTask_taskToJson, ih]
  exact h ts

/-- C10 (confirmed): after a phase has completed (`remaining = 0`), calling
`start()` leaves `remaining` at `0` while setting `running = true`, and the
very next `update(dt)` with any `dt ≥ 0` immediately returns `true` again
with `remaining` still `0` and `running` back to `false`. -/
theorem C10_start_after_zero_refires (t : PomodoroTimer) (dt : ℚ)
    (h0 : t.remaining = 0) (hdt : 0 ≤ dt) :
    t.start.running = true ∧ t.start.remaining = 0 ∧
    (t.start.update dt).1 = true ∧ (t.start.update dt).2.remaining = 0 ∧
    (t.start.update dt).2.running = false := by
  have hrr : t.start.running = true := rfl
  have hrem : t.start.remaining = 0 := h0
  have hf : t.start.remaining - dt ≤ 0 := by
    rw [hrem]
    linarith
  have hupd := update_fires t.start dt hrr hf
  rw [hupd]
  exact ⟨rfl, hrem, rfl, rfl, rfl⟩

/-- C10 witness at a concrete exhausted timer and `dt = 1`. -/
theorem C10_witness :
    exTimerDone.start.running = true ∧ exTimerDone.start.remaining = 0 ∧
    (exTimerDone.start.update 1).1 = true ∧
    (exTimerDone.start.update 1).2.remaining = 0 ∧
    (exTimerDone.start.update 1).2.running = false :=
  C10_start_after_zero_refires exTimerDone 1 rfl (by norm_num)

/-- C1 counterexample (corrected): completing a break phase is not left
unrecorded — the tick calls `record_session` unconditionally, so
`total_sessions` changes even though `is_break` was true. -/
theorem C1_counterexample :
    exAppBreak.timer.is_break = true ∧
    (exAppBreak.timer.update 2).1 = true ∧
    (exAppBreak.tickTimer "2026-10-12" 2).stats.total_sessions
      ≠ exAppBreak.stats.total_sessions := by
  refine ⟨rfl, ?_, ?_⟩
  · norm_num [PomodoroTimer.update, exAppBreak, exTimerBreak]
  · norm_num [FocusApp.tickTimer, PomodoroTimer.update,
      PomodoroTimer.start_focus_session, exAppBreak, exTimerBreak,
      Stats.record_session, Stats.init, pyInt, dictGet, dictSet]

/-- C1 (corrected): on every tick, when `update` returns `true` then
`record_session` is applied exactly once — for focus and break phases alike
— with the just-completed phase duration `int(timer.total)`: total sessions,
focus time and streak each grow by one step and the daily record of today is
bumped by one; when `update` returns `false` the stats are untouched. -/
theorem C1_record_session_every_completed_phase (a : FocusApp) (today : String)
    (dt : ℚ) :
    ((a.timer.update dt).1 = true →
      (a.tickTimer today dt).stats
        = a.stats.record_session today (pyInt a.timer.total)) ∧
    ((a.timer.update dt).1 = false → (a.tickTimer today dt).stats = a.stats) ∧
    ((a.timer.update dt).1 = true →
      (a.tickTimer today dt).stats.total_sessions = a.stats.total_sessions + 1 ∧
      (a.tickTimer today dt).stats.total_focus_time
        = a.stats.total_focus_time + pyInt a.timer.total ∧
      (a.tickTimer today dt).stats.current_streak = a.stats.current_streak + 1 ∧
      dictGet (a.tickTimer today dt).stats.daily_records today
        = dictGet a.stats.daily_records today + 1) := by
  have htot : ((a.timer.update dt).2).total = a.timer.total := update_total a.timer dt
  have hstats : (a.timer.update dt).1 = true →
      (a.tickTimer today dt).stats
        = a.stats.record_session today (pyInt a.timer.total) := by
    intro hfire
    simp only [FocusApp.tickTimer, hfire, if_true, htot]
    by_cases hb : ((a.timer.update dt).2).is_break <;> simp [hb]
  refine ⟨hstats, ?_, ?_⟩
  · intro hfalse
    simp only [FocusApp.tickTimer, hfalse, Bool.false_eq_true, if_false]
  · intro hfire
    rw [hstats hfire]
    refine ⟨?_, ?_, ?_, ?_⟩
    · simp only [Stats.record_session]
      split <;> rfl
    · simp only [Stats.record_session]
      split <;> rfl
    · simp only [Stats.record_session]
      split <;> rfl
    · simp only [Stats.record_session]
      split <;> rw [dictGet_dictSet_self]

/-- C1 witness: a focus-phase completion at concrete inputs, showing the one
`record_session` application. -/
theorem C1_witness :
    (exAppFocus.tickTimer "2026-10-12" 2).stats
      = exAppFocus.stats.record_session "2026-10-12" (pyInt exAppFocus.timer.total) :=
  (C1_record_session_every_completed_phase exAppFocus "2026-10-12" 2).1
    (by norm_num [PomodoroTimer.update, exAppFocus, exTimerFocus])

/-- C4 (confirmed): `update` on a stopped timer returns `false` and changes
nothing; on a running timer it decrements `remaining` by `dt`; starting a
fresh running phase (`remaining = total > 0`) and feeding any sequence of
nonnegative `dt`s, the call at position `k` returns `true` exactly when the
cumulative time first reaches `total`, `true` is returned at most once
overall and exactly once when the sequence reaches `total`, after which
`remaining` is clamped to `0` and `running` is `false`. -/
theorem C4_update_fires_exactly_once (s : PomodoroTimer) (ds : List ℚ)
    (hd : ∀ d ∈ ds, 0 ≤ d) (hrun : s.running = true)
    (hrt : s.remaining = s.total) (hpos : 0 < s.total) :
    (∀ (t : PomodoroTimer) (d : ℚ), t.running = false → t.update d = (false, t)) ∧
    (∀ (t : PomodoroTimer) (d : ℚ), t.running = true → 0 < t.remaining - d →
      t.update d = (false, { t with remaining := t.remaining - d })) ∧
    (∀ k : Nat, (runUpdates s ds).1.getD k false
      = decide ((ds.take k).sum < s.total ∧ s.total ≤ (ds.take (k + 1)).sum)) ∧
    (runUpdates s ds).1.count true ≤ 1 ∧
    (s.total ≤ ds.sum →
      (runUpdates s ds).1.count true = 1 ∧
      (runUpdates s ds).2.remaining = 0 ∧ (runUpdates s ds).2.running = false) := by
  have hr : 0 < s.remaining := by rw [hrt]; exact hpos
  obtain ⟨hrem, hrunning, hget⟩ := runUpdates_char ds s hd hrun hr
  rw [hrt] at hrem hrunning hget
  refine ⟨fun t d h => update_not_running t d h,
    fun t d h hf => update_decrements t d h hf, hget, runUpdates_count ds s, ?_⟩
  intro hsum
  have hnot : ¬ ds.sum < s.total := not_lt.mpr hsum
  refine ⟨count_one_of_fired s ds hd hrun hr (by rw [hrt]; exact hsum), ?_, ?_⟩
  · rw [hrem, if_neg hnot]
  · rw [hrunning]
    simpa using hnot

/-- C4 witness: a 1500-second focus session driven with `[1000, 600]` fires
exactly once and ends clamped at zero. -/
theorem C4_witness :
    (runUpdates exTimerFocusFull [1000, 600]).1.count true = 1 ∧
    (runUpdates exTimerFocusFull [1000, 600]).2.remaining = 0 ∧
    (runUpdates exTimerFocusFull [1000, 600]).2.running = false :=
  (C4_update_fires_exactly_once exTimerFocusFull [1000, 600]
    (by intro d hdm; fin_cases hdm <;> norm_num)
    rfl rfl (by norm_num [exTimerFocusFull])).2.2.2.2
    (by norm_num [exTimerFocusFull, List.sum_cons, List.sum_nil])

/-- C8 counterexample (corrected): a task already complete (say, completed
on a previous day) toggled incomplete and complete again on a day whose
bucket starts empty leaves the score at `10`, not at its original `0`: the
deduction hits the floor (here: the missing entry) while the re-completion
adds the full score. -/
theorem C8_counterexample :
    0 ≤ exTaskDone.score ∧
    dictGet Stats.init.daily_task_scores "2026-10-12" = 0 ∧
    dictGet ((toggleIter "2026-10-12" 2 (exTaskDone, Stats.init)).2).daily_task_scores
        "2026-10-12" = 10 ∧
    dictGet ((toggleIter "2026-10-12" 2 (exTaskDone, Stats.init)).2).daily_task_scores
        "2026-10-12"
      ≠ dictGet Stats.init.daily_task_scores "2026-10-12" := by
  refine ⟨by norm_num [exTaskDone], rfl, ?_, ?_⟩ <;>
    norm_num [toggleIter, toggleTask, exTaskDone, Stats.init,
      Stats.deduct_task_score, Stats.record_task_completion, dictGet, dictSet,
      dictMem]

/-- C8 (corrected): for a task that starts incomplete (so each pair of
toggles is a completion followed by an un-completion), any even number of
same-day toggles returns the bucket of today to its original value, and
with a nonnegative score and a nonnegative starting bucket the bucket never
drops below `0` after any number of toggles. -/
theorem C8_even_toggles_restore_score (today : String) (k : Nat) (t : Task)
    (st : Stats) (hc : t.complete = false) (hs : 0 ≤ t.score)
    (hv : 0 ≤ dictGet st.daily_task_scores today) :
    (dictGet ((toggleIter today (2 * k) (t, st)).2).daily_task_scores today
      = dictGet st.daily_task_scores today) ∧
    (∀ n : Nat, 0 ≤ dictGet ((toggleIter today n (t, st)).2).daily_task_scores today) := by
  constructor
  · clear hs
    induction k generalizing t st with
    | zero => rfl
    | succ k ih =>
      have h2 : 2 * (k + 1) = 2 * k + 2 := by ring
      rw [h2, toggleIter_two_step]
      obtain ⟨hc2, hsc2, hg2⟩ := toggle_pair t st today hc hv
      have hv2 : 0 ≤ dictGet ((toggleTask (toggleTask t st today).1
          (toggleTask t st today).2 today).2).daily_task_scores today := by
        rw [hg2]
        exact hv
      have happ := ih (toggleTask (toggleTask t st today).1
          (toggleTask t st today).2 today).1
        (toggleTask (toggleTask t st today).1
          (toggleTask t st today).2 today).2 hc2 hv2
      calc dictGet ((toggleIter today (2 * k)
              (toggleTask (toggleTask t st today).1
                (toggleTask t st today).2 today)).2).daily_task_scores today
          = dictGet ((toggleTask (toggleTask t st today).1
              (toggleTask t st today).2 today).2).daily_task_scores today := happ
        _ = dictGet st.daily_task_scores today := hg2
  · clear hc
    intro n
    induction n generalizing t st with
    | zero => exact hv
    | succ n ih =>
      rw [toggleIter_succ]
      obtain ⟨hnn, hsc⟩ := toggle_step_nonneg t st today hs hv
      have happ := ih (toggleTask t st today).1 (toggleTask t st today).2
        (by rw [hsc]; exact hs) hnn
      exact happ

/-- C8 witness: four toggles of an initially incomplete task on one day with
an empty starting bucket restore the score of today. -/
theorem C8_witness :
    dictGet ((toggleIter "2026-10-12" (2 * 2)
        (exTaskTodo, Stats.init)).2).daily_task_scores "2026-10-12"
      = dictGet Stats.init.daily_task_scores "2026-10-12" :=
  (C8_even_toggles_restore_score "2026-10-12" 2 exTaskTodo Stats.init rfl
    (by norm_num [exTaskTodo]) (by simp [Stats.init, dictGet])).1

end Focus
